import Mathlib

/-!
Verification of the microRobotFramework protocol codec and odometry integrator.

The Python source is shallowly embedded:
  * the serial byte stream is a `List ℕ` of pending bytes; a `read n` that hits
    the transport timeout is modelled by the stream simply running out of
    bytes (pyserial returns the bytes available so far, possibly none);
  * machine integers are `ℤ`/`ℕ` with explicit two's-complement conversion;
  * Python floats are modelled as exact rationals `ℚ`; the transcendental
    constants/functions (`math.pi`, `math.cos`, `math.sin`) are passed as
    explicit parameters (`p : ℚ`, `pcos psin : ℚ → ℚ`) so that every
    definition stays executable; theorems quantify over them or constrain
    them exactly as the mathematical functions behave at the points consulted;
  * each `MRF` object's mutable fields become a state record that the
    embedded methods transform, returning the new state together with the
    method's boolean result.
-/

/-- Decoded sensor fields of an `MRF` object: 6 IMU words and 4 encoder
words, all initialized to 0 in `__init__`.  All variants store them in the
same ten attributes. -/
structure SensorState where
  accel_x : ℤ
  accel_y : ℤ
  accel_z : ℤ
  gyro_x : ℤ
  gyro_y : ℤ
  gyro_z : ℤ
  encoder1 : ℤ
  encoder2 : ℤ
  encoder3 : ℤ
  encoder4 : ℤ
deriving DecidableEq, Repr

/-- Sensor fields as zero-initialized by `MRF.__init__`. -/
def mkSensor : SensorState :=
  ⟨0, 0, 0, 0, 0, 0, 0, 0, 0, 0⟩

/-- `HEADER_BYTE = 0xF5`, the sensor-frame header of every variant. -/
def HEADER_BYTE : ℕ := 0xF5

/-- Two's-complement interpretation of a 16-bit word, as `struct.unpack`
does for format character `h`. -/
def toInt16 (u : ℕ) : ℤ :=
  if u < 32768 then (u : ℤ) else (u : ℤ) - 65536

/-- Two's-complement interpretation of an 8-bit byte (format character `b`). -/
def toInt8 (u : ℕ) : ℤ :=
  if u < 128 then (u : ℤ) else (u : ℤ) - 256

/-- Variant 01 `MRF._parse_sensor_data`: `struct.unpack(">hhhhhhhhhh", buf)`
on a 20-byte buffer — ten big-endian SIGNED 16-bit words (note: the four
encoder words are parsed with `h`, not `H`, although the docstring says
uint16).  On any other buffer length `struct.error` is caught and the
fields are left unchanged. -/
def parse01 (data : List ℕ) (st : SensorState) : SensorState :=
  if data.length = 20 then
    { accel_x := toInt16 (256 * data.getD 0 0 + data.getD 1 0)
      accel_y := toInt16 (256 * data.getD 2 0 + data.getD 3 0)
      accel_z := toInt16 (256 * data.getD 4 0 + data.getD 5 0)
      gyro_x := toInt16 (256 * data.getD 6 0 + data.getD 7 0)
      gyro_y := toInt16 (256 * data.getD 8 0 + data.getD 9 0)
      gyro_z := toInt16 (256 * data.getD 10 0 + data.getD 11 0)
      encoder1 := toInt16 (256 * data.getD 12 0 + data.getD 13 0)
      encoder2 := toInt16 (256 * data.getD 14 0 + data.getD 15 0)
      encoder3 := toInt16 (256 * data.getD 16 0 + data.getD 17 0)
      encoder4 := toInt16 (256 * data.getD 18 0 + data.getD 19 0) }
  else st

/-- Variant 02 `MRF._parse_sensor_data`: `struct.unpack('<6h4H', buf)` —
six little-endian signed words then four little-endian unsigned words;
`struct.error` on a wrong-sized buffer is caught, fields unchanged. -/
def parse02 (data : List ℕ) (st : SensorState) : SensorState :=
  if data.length = 20 then
    { accel_x := toInt16 (data.getD 0 0 + 256 * data.getD 1 0)
      accel_y := toInt16 (data.getD 2 0 + 256 * data.getD 3 0)
      accel_z := toInt16 (data.getD 4 0 + 256 * data.getD 5 0)
      gyro_x := toInt16 (data.getD 6 0 + 256 * data.getD 7 0)
      gyro_y := toInt16 (data.getD 8 0 + 256 * data.getD 9 0)
      gyro_z := toInt16 (data.getD 10 0 + 256 * data.getD 11 0)
      encoder1 := ((data.getD 12 0 + 256 * data.getD 13 0 : ℕ) : ℤ)
      encoder2 := ((data.getD 14 0 + 256 * data.getD 15 0 : ℕ) : ℤ)
      encoder3 := ((data.getD 16 0 + 256 * data.getD 17 0 : ℕ) : ℤ)
      encoder4 := ((data.getD 18 0 + 256 * data.getD 19 0 : ℕ) : ℤ) }
  else st

/-- Variant 03 `MRF._parse_sensor_data`: ten separate big-endian
`struct.unpack` calls on slices `[0:2]` … `[18:20]` of the 21-byte buffer
(six `>h` then four `>H`); a short buffer raises `struct.error`, which is
caught with the fields left unchanged. -/
def parse03 (data : List ℕ) (st : SensorState) : SensorState :=
  if 20 ≤ data.length then
    { accel_x := toInt16 (256 * data.getD 0 0 + data.getD 1 0)
      accel_y := toInt16 (256 * data.getD 2 0 + data.getD 3 0)
      accel_z := toInt16 (256 * data.getD 4 0 + data.getD 5 0)
      gyro_x := toInt16 (256 * data.getD 6 0 + data.getD 7 0)
      gyro_y := toInt16 (256 * data.getD 8 0 + data.getD 9 0)
      gyro_z := toInt16 (256 * data.getD 10 0 + data.getD 11 0)
      encoder1 := ((256 * data.getD 12 0 + data.getD 13 0 : ℕ) : ℤ)
      encoder2 := ((256 * data.getD 14 0 + data.getD 15 0 : ℕ) : ℤ)
      encoder3 := ((256 * data.getD 16 0 + data.getD 17 0 : ℕ) : ℤ)
      encoder4 := ((256 * data.getD 18 0 + data.getD 19 0 : ℕ) : ℤ) }
  else st

/-- Header scan loop of variants 01/02 `receive_sensor_data`: read one byte
at a time until it equals `HEADER_BYTE`; an empty read (timeout / stream
exhausted) aborts with `none`; otherwise return the bytes after the header. -/
def findHeader : List ℕ → Option (List ℕ)
  | [] => none
  | b :: rest => if b = HEADER_BYTE then some rest else findHeader rest

/-- Variant 01 `MRF.receive_sensor_data` on the pending byte stream:
scan for the header, then `read(20)` (which may return fewer bytes) and
parse.  The code performs NO length check on the payload read: it always
returns `True` once a header byte was found, even if the payload was
short and `_parse_sensor_data` swallowed a `struct.error`. -/
def receive01 (stream : List ℕ) (st : SensorState) : SensorState × Bool :=
  match findHeader stream with
  | none => (st, false)
  | some rest => (parse01 (rest.take 20) st, true)

/-- Variant 02 `MRF.receive_sensor_data`: scan for the header, `read(20)`,
return `False` (incomplete packet) unless exactly 20 bytes arrived, else
parse and return `True`. -/
def receive02 (stream : List ℕ) (st : SensorState) : SensorState × Bool :=
  match findHeader stream with
  | none => (st, false)
  | some rest =>
    let data := rest.take 20
    if data.length = 20 then (parse02 data st, true) else (st, false)

/-- Variant 03 `MRF.receive_sensor_data`: a single `read(23)` with no
header scan at all; fail unless 23 bytes arrived, then parse the buffer
from offset 2 onward (header and length bytes are skipped blindly, never
compared against `HEADER_BYTE`). -/
def receive03 (stream : List ℕ) (st : SensorState) : SensorState × Bool :=
  let buffer := stream.take 23
  if buffer.length = 23 then (parse03 (buffer.drop 2) st, true)
  else (st, false)

/-- Python `max(lo, min(hi, v))` clamping used by `send_motor_command`. -/
def clamp (lo hi v : ℤ) : ℤ := max lo (min hi v)

/-- Little-endian int16 emission of `struct.pack('<h', v)` (low byte first);
after clamping, `v` always fits in an int16, so the two's-complement
reduction mod 2^16 is exactly what `pack` emits. -/
def encodeI16LE (v : ℤ) : List ℕ :=
  [(v % 65536).toNat % 256, (v % 65536).toNat / 256]

/-- Variant 02 `MRF.send_motor_command`: clamp speed to −255..255 and angle
to −180..180, then `struct.pack('<Bhh', 0xFA, speed, angle)`. -/
def send_motor_command02 (speed angle : ℤ) : List ℕ :=
  let s := clamp (-255) 255 speed
  let a := clamp (-180) 180 angle
  0xFA :: (encodeI16LE s ++ encodeI16LE a)

/-- Variant 03 `MRF.send_motor_command`: clamp speed to 0..255 and angle to
−127..127, then emit `[0xAA, 3, speed & 0xFF, angle & 0xFF, xor-checksum]`. -/
def send_motor_command03 (speed angle : ℤ) : List ℕ :=
  let s := clamp 0 255 speed
  let a := clamp (-127) 127 angle
  let b0 : ℕ := 0xAA
  let b1 : ℕ := 3
  let b2 : ℕ := (s % 256).toNat
  let b3 : ℕ := (a % 256).toNat
  [b0, b1, b2, b3, Nat.xor (Nat.xor (Nat.xor b0 b1) b2) b3]

/-- Speed value carried by a variant-02 packet: little-endian signed word
at payload offsets 1–2. -/
def packetSpeed02 (cmd : List ℕ) : ℤ :=
  toInt16 (cmd.getD 1 0 + 256 * cmd.getD 2 0)

/-- Angle value carried by a variant-02 packet: little-endian signed word
at payload offsets 3–4. -/
def packetAngle02 (cmd : List ℕ) : ℤ :=
  toInt16 (cmd.getD 3 0 + 256 * cmd.getD 4 0)

/-- Speed value carried by a variant-03 packet: unsigned byte at offset 2. -/
def packetSpeed03 (cmd : List ℕ) : ℤ := (cmd.getD 2 0 : ℤ)

/-- Angle value carried by a variant-03 packet: signed byte at offset 3. -/
def packetAngle03 (cmd : List ℕ) : ℤ := toInt8 (cmd.getD 3 0)

/-- First loop of `MRF_Odometry._normalize_angle`
(`while angle > pi: angle -= 2.0 * pi`), with `p` standing for `math.pi`
and an explicit fuel bound that only serves termination; `normFuel`
always supplies enough fuel for the loop to reach its exit condition. -/
def subLoop : ℕ → ℚ → ℚ → ℚ
  | 0, _, angle => angle
  | fuel + 1, p, angle => if p < angle then subLoop fuel p (angle - 2 * p) else angle

/-- Second loop of `MRF_Odometry._normalize_angle`
(`while angle < -pi: angle += 2.0 * pi`), fuelled like `subLoop`. -/
def addLoop : ℕ → ℚ → ℚ → ℚ
  | 0, _, angle => angle
  | fuel + 1, p, angle => if angle < -p then addLoop fuel p (angle + 2 * p) else angle

/-- Fuel that upper-bounds the number of iterations either normalization
loop can make on `angle`. -/
def normFuel (p angle : ℚ) : ℕ := ⌈|angle| / (2 * p)⌉.toNat + 1

/-- `MRF_Odometry._normalize_angle`: run the subtract-2π loop, then the
add-2π loop, with `p` standing for `math.pi`. -/
def normalize_angle (p angle : ℚ) : ℚ :=
  addLoop (normFuel p angle) p (subLoop (normFuel p angle) p angle)

/-- `Position` dataclass of `MRF_odometry.py` (all fields default 0.0). -/
structure Position where
  x : ℚ := 0
  y : ℚ := 0
  theta : ℚ := 0
  timestamp : ℚ := 0
deriving DecidableEq, Repr

/-- `Velocity` dataclass of `MRF_odometry.py` (all fields default 0.0). -/
structure Velocity where
  linear : ℚ := 0
  angular : ℚ := 0
  left_wheel : ℚ := 0
  right_wheel : ℚ := 0
deriving DecidableEq, Repr

/-- Mutable attributes of an `MRF_Odometry` object. -/
structure OdoState where
  wheel_base : ℚ
  wheel_radius : ℚ
  encoder_resolution : ℤ
  position : Position
  velocity : Velocity
  prev_encoder_left : ℤ
  prev_encoder_right : ℤ
  prev_timestamp : ℚ
  distance_per_pulse : ℚ
  path_history : List Position
  max_path_length : ℕ
  total_distance : ℚ
  total_rotation : ℚ
deriving DecidableEq, Repr

/-- `MRF_Odometry.__init__` with `p` standing for `math.pi` and `now` for
the `time.time()` call: zero pose and velocity, zero previous encoder
values, empty path history with capacity 1000, zero statistics. -/
def mkOdometry (p wheel_base wheel_radius : ℚ) (encoder_resolution : ℤ)
    (now : ℚ) : OdoState :=
  { wheel_base := wheel_base
    wheel_radius := wheel_radius
    encoder_resolution := encoder_resolution
    position := {}
    velocity := {}
    prev_encoder_left := 0
    prev_encoder_right := 0
    prev_timestamp := now
    distance_per_pulse := 2 * p * wheel_radius / (encoder_resolution : ℚ)
    path_history := []
    max_path_length := 1000
    total_distance := 0
    total_rotation := 0 }

/-- Encoder-overflow correction inside `update_odometry`:
`if abs(delta) > 32768: delta -= 65536 if delta > 0 else delta += 65536`. -/
def wrapCorrect (delta : ℤ) : ℤ :=
  if 32768 < |delta| then (if 0 < delta then delta - 65536 else delta + 65536) else delta

/-- The pair of wrap-corrected encoder deltas `update_odometry` computes
from the stored previous encoder values. -/
def encoderDeltas (st : OdoState) (encoder_left encoder_right : ℤ) : ℤ × ℤ :=
  (wrapCorrect (encoder_left - st.prev_encoder_left),
   wrapCorrect (encoder_right - st.prev_encoder_right))

/-- `MRF_Odometry._record_position`: append a copy of the current position
and `pop(0)` if the history has grown beyond `max_path_length`. -/
def recordPosition (st : OdoState) : OdoState :=
  let pos_copy : Position :=
    { x := st.position.x, y := st.position.y
      theta := st.position.theta, timestamp := st.position.timestamp }
  let h := st.path_history ++ [pos_copy]
  { st with path_history := if st.max_path_length < h.length then h.tail else h }

/-- `MRF_Odometry.update_odometry` with the wall clock passed explicitly
(`current_time` for the `time.time()` call) and `math.pi`, `math.cos`,
`math.sin` as the parameters `p`, `pcos`, `psin`.  Returns the new state
and the boolean the method returns. -/
def updateOdometry (pcos psin : ℚ → ℚ) (p : ℚ) (st : OdoState)
    (encoder_left encoder_right : ℤ) (current_time : ℚ) : OdoState × Bool :=
  let dt := current_time - st.prev_timestamp
  if dt < 1 / 1000 then (st, false)
  else
    let delta_left := wrapCorrect (encoder_left - st.prev_encoder_left)
    let delta_right := wrapCorrect (encoder_right - st.prev_encoder_right)
    let distance_left := (delta_left : ℚ) * st.distance_per_pulse
    let distance_right := (delta_right : ℚ) * st.distance_per_pulse
    let distance_center := (distance_left + distance_right) / 2
    let delta_theta := (distance_right - distance_left) / st.wheel_base
    let theta0 := st.position.theta
    let radius := distance_center / delta_theta
    let delta_x :=
      if |delta_theta| < 1 / 1000000 then distance_center * pcos theta0
      else radius * (psin (theta0 + delta_theta) - psin theta0)
    let delta_y :=
      if |delta_theta| < 1 / 1000000 then distance_center * psin theta0
      else radius * (-pcos (theta0 + delta_theta) + pcos theta0)
    let pos1 : Position :=
      { x := st.position.x + delta_x
        y := st.position.y + delta_y
        theta := normalize_angle p (theta0 + delta_theta)
        timestamp := current_time }
    let vel : Velocity :=
      { linear := distance_center / dt
        angular := delta_theta / dt
        left_wheel := distance_left / dt
        right_wheel := distance_right / dt }
    let st1 := { st with
      position := pos1
      velocity := vel
      total_distance := st.total_distance + |distance_center|
      total_rotation := st.total_rotation + |delta_theta| }
    let st2 := recordPosition st1
    ({ st2 with
        prev_encoder_left := encoder_left
        prev_encoder_right := encoder_right
        prev_timestamp := current_time }, true)

/-- `MRF_Odometry.reset_odometry` with `now` for its `time.time()` call:
fresh `Position()` and `Velocity()`, cleared history and statistics, new
previous timestamp — and the previous encoder values left untouched. -/
def resetOdometry (st : OdoState) (now : ℚ) : OdoState :=
  { st with
    position := {}
    velocity := {}
    path_history := []
    total_distance := 0
    total_rotation := 0
    prev_timestamp := now }

/-- Fold a sequence of `update_odometry` calls (arguments and call time)
over a starting state, keeping only the state. -/
def runUpdates (pcos psin : ℚ → ℚ) (p : ℚ) (st : OdoState) :
    List (ℤ × ℤ × ℚ) → OdoState
  | [] => st
  | c :: cs =>
    runUpdates pcos psin p (updateOdometry pcos psin p st c.1 c.2.1 c.2.2).1 cs

/-- An odometry state whose stored previous encoder readings are 65500,
as left behind by an earlier accepted update near the top of the uint16
range (default physical parameters, `math.pi` parameter 3, last accepted
timestamp 0). -/
def stWrapEx : OdoState :=
  { mkOdometry 3 (1/5) (1/20) 1024 0 with
    prev_encoder_left := 65500
    prev_encoder_right := 65500 }

/-- An odometry state whose path history is full at capacity 1 (one prior
recorded position), used to exercise eviction. -/
def stFullEx : OdoState :=
  { mkOdometry 3 (1/5) (1/20) 1024 0 with
    position := ⟨4, 5, 0, 6⟩
    path_history := [⟨1, 2, 3, 4⟩]
    max_path_length := 1 }

/-- A 20-byte big-endian sensor payload whose encoder1 field carries the
raw value 65500 (bytes 0xFF 0xDC at offsets 12–13), all other fields 0. -/
def payloadBE : List ℕ :=
  [0, 0, 0, 0, 0, 0, 0, 0, 0, 0, 0, 0, 255, 220, 0, 0, 0, 0, 0, 0]

/-- The same sensor payload in variant 02's little-endian layout:
encoder1 = 65500 as bytes 0xDC 0xFF at offsets 12–13. -/
def payloadLE : List ℕ :=
  [0, 0, 0, 0, 0, 0, 0, 0, 0, 0, 0, 0, 220, 255, 0, 0, 0, 0, 0, 0]

/-- A byte stream consisting of one garbage byte (0x01) followed by a
complete, well-formed variant 03 frame: header 0xF5, length byte 20, then
a 21-byte payload whose accel_x field is 7 (bytes 0x00 0x07). -/
def streamC : List ℕ :=
  1 :: HEADER_BYTE :: 20 :: 0 :: 7 :: List.replicate 19 0

/-! Helper lemmas about the angle-normalization loops. -/

lemma subLoop_le (p : ℚ) (hp : 0 < p) :
    ∀ (fuel : ℕ) (angle : ℚ), angle ≤ p + 2 * p * fuel → subLoop fuel p angle ≤ p := by
  intro fuel
  induction fuel with
  | zero =>
    intro angle h
    simp only [subLoop]
    push_cast at h
    linarith
  | succ n ih =>
    intro angle h
    simp only [subLoop]
    split_ifs with hlt
    · apply ih
      push_cast at h ⊢
      linarith
    · exact not_lt.mp hlt

lemma subLoop_cases (p : ℚ) (hp : 0 < p) :
    ∀ (fuel : ℕ) (angle : ℚ), -p < subLoop fuel p angle ∨ subLoop fuel p angle = angle := by
  intro fuel
  induction fuel with
  | zero => intro angle; exact Or.inr rfl
  | succ n ih =>
    intro angle
    simp only [subLoop]
    split_ifs with hlt
    · rcases ih (angle - 2 * p) with h | h
      · exact Or.inl h
      · exact Or.inl (by rw [h]; linarith)
    · exact Or.inr rfl

lemma addLoop_ge (p : ℚ) (hp : 0 < p) :
    ∀ (fuel : ℕ) (angle : ℚ), -(p + 2 * p * fuel) ≤ angle → -p ≤ addLoop fuel p angle := by
  intro fuel
  induction fuel with
  | zero =>
    intro angle h
    simp only [addLoop]
    push_cast at h
    linarith
  | succ n ih =>
    intro angle h
    simp only [addLoop]
    split_ifs with hlt
    · apply ih
      push_cast at h ⊢
      linarith
    · exact not_lt.mp hlt

lemma addLoop_cases (p : ℚ) (hp : 0 < p) :
    ∀ (fuel : ℕ) (angle : ℚ), addLoop fuel p angle ≤ p ∨ addLoop fuel p angle = angle := by
  intro fuel
  induction fuel with
  | zero => intro angle; exact Or.inr rfl
  | succ n ih =>
    intro angle
    simp only [addLoop]
    split_ifs with hlt
    · rcases ih (angle + 2 * p) with h | h
      · exact Or.inl h
      · exact Or.inl (by rw [h]; linarith)
    · exact Or.inr rfl

lemma subLoop_id (p : ℚ) (fuel : ℕ) (angle : ℚ) (h : angle ≤ p) :
    subLoop fuel p angle = angle := by
  cases fuel with
  | zero => rfl
  | succ n => simp only [subLoop, if_neg (not_lt.mpr h)]

lemma addLoop_id (p : ℚ) (fuel : ℕ) (angle : ℚ) (h : -p ≤ angle) :
    addLoop fuel p angle = angle := by
  cases fuel with
  | zero => rfl
  | succ n => simp only [addLoop, if_neg (not_lt.mpr h)]

lemma normFuel_big (p angle : ℚ) (hp : 0 < p) :
    |angle| ≤ 2 * p * (normFuel p angle : ℚ) := by
  have h2p : (0 : ℚ) < 2 * p := by linarith
  have hq : |angle| / (2 * p) ≤ ((normFuel p angle : ℚ)) := by
    have hceil := Int.le_ceil (|angle| / (2 * p))
    have htn : ((⌈|angle| / (2 * p)⌉ : ℤ) : ℚ) ≤ ((⌈|angle| / (2 * p)⌉.toNat : ℤ) : ℚ) := by
      exact_mod_cast Int.self_le_toNat ⌈|angle| / (2 * p)⌉
    rw [normFuel]
    push_cast
    push_cast at htn
    linarith
  calc |angle| = |angle| / (2 * p) * (2 * p) := by field_simp
  _ ≤ (normFuel p angle : ℚ) * (2 * p) := by
      exact mul_le_mul_of_nonneg_right hq (le_of_lt h2p)
  _ = 2 * p * (normFuel p angle : ℚ) := by ring

lemma normalize_angle_mem (p angle : ℚ) (hp : 0 < p) :
    -p ≤ normalize_angle p angle ∧ normalize_angle p angle ≤ p := by
  have hbig := normFuel_big p angle hp
  have hN0 : (0 : ℚ) ≤ 2 * p * (normFuel p angle : ℚ) := by positivity
  rw [normalize_angle]
  have hyle : subLoop (normFuel p angle) p angle ≤ p := by
    apply subLoop_le p hp
    have := le_abs_self angle
    linarith
  have hylow : -(p + 2 * p * (normFuel p angle : ℚ)) ≤ subLoop (normFuel p angle) p angle := by
    rcases subLoop_cases p hp (normFuel p angle) angle with h | h
    · linarith
    · rw [h]
      have := neg_abs_le angle
      linarith
  constructor
  · exact addLoop_ge p hp (normFuel p angle) _ hylow
  · rcases addLoop_cases p hp (normFuel p angle) (subLoop (normFuel p angle) p angle) with h | h
    · exact h
    · rw [h]; exact hyle

lemma normalize_angle_id (p r : ℚ) (h1 : -p ≤ r) (h2 : r ≤ p) :
    normalize_angle p r = r := by
  rw [normalize_angle, subLoop_id p _ r h2, addLoop_id p _ r h1]

/-- C3: for every angle and every positive value of the `math.pi`
parameter, `_normalize_angle` lands in the CLOSED interval `[-p, p]` and
is idempotent.  (The spec's half-open interval `(-p, p]` is refuted by
`c3_counterexample`: the loops leave `-p` itself untouched.) -/
theorem c3_normalize_range_idem (p angle : ℚ) (hp : 0 < p) :
    (-p ≤ normalize_angle p angle ∧ normalize_angle p angle ≤ p) ∧
    normalize_angle p (normalize_angle p angle) = normalize_angle p angle := by
  obtain ⟨h1, h2⟩ := normalize_angle_mem p angle hp
  exact ⟨⟨h1, h2⟩, normalize_angle_id p _ h1 h2⟩

/-- Witness for `c3_normalize_range_idem` at `p = 3`, `angle = 10`. -/
theorem c3_normalize_range_idem_witness :
    (0 : ℚ) < 3 ∧
    ((-3 ≤ normalize_angle 3 10 ∧ normalize_angle 3 10 ≤ 3) ∧
      normalize_angle 3 (normalize_angle 3 10) = normalize_angle 3 10) :=
  ⟨by norm_num, c3_normalize_range_idem 3 10 (by norm_num)⟩

/-- C3 counterexample: at the boundary angle `-p` (here `p = 3` standing
for π) `_normalize_angle` returns `-p` itself, which is NOT in the
half-open interval `(-p, p]` the claim asserts; the code's own docstring
says `[-pi, pi]`. -/
theorem c3_counterexample :
    normalize_angle 3 (-3) = -3 ∧ ¬ (-3 < normalize_angle 3 (-3)) := by
  have h : normalize_angle 3 (-3) = -3 :=
    normalize_angle_id 3 (-3) (by norm_num) (by norm_num)
  exact ⟨h, by rw [h]; exact lt_irrefl _⟩

/-- C6: an `update_odometry` call arriving less than 1 ms after the stored
previous timestamp returns `False` (distinguishable from success) and
changes nothing — pose, velocity, statistics, path history, and the
encoder/timestamp baseline are all the untouched `st` — and therefore a
later call is applied to the very same last accepted baseline. -/
theorem c6_subms_noop (pcos psin : ℚ → ℚ) (p : ℚ) (st : OdoState) (l r : ℤ)
    (t : ℚ) (h : t - st.prev_timestamp < 1 / 1000) :
    updateOdometry pcos psin p st l r t = (st, false) ∧
    ∀ (l2 r2 : ℤ) (t2 : ℚ),
      updateOdometry pcos psin p (updateOdometry pcos psin p st l r t).1 l2 r2 t2 =
        updateOdometry pcos psin p st l2 r2 t2 := by
  have h1 : updateOdometry pcos psin p st l r t = (st, false) := by
    rw [updateOdometry, if_pos h]
  exact ⟨h1, fun l2 r2 t2 => by rw [h1]⟩

/-- Witness for `c6_subms_noop`: a freshly constructed integrator updated
again at its construction instant (dt = 0 < 1 ms). -/
theorem c6_subms_noop_witness :
    updateOdometry (fun _ => 1) (fun _ => 0) 3 (mkOdometry 3 (1/5) (1/20) 1024 0) 7 9 0 =
      (mkOdometry 3 (1/5) (1/20) 1024 0, false) ∧
    ∀ (l2 r2 : ℤ) (t2 : ℚ),
      updateOdometry (fun _ => 1) (fun _ => 0) 3
          (updateOdometry (fun _ => 1) (fun _ => 0) 3 (mkOdometry 3 (1/5) (1/20) 1024 0) 7 9 0).1 l2 r2 t2 =
        updateOdometry (fun _ => 1) (fun _ => 0) 3 (mkOdometry 3 (1/5) (1/20) 1024 0) l2 r2 t2 :=
  c6_subms_noop (fun _ => 1) (fun _ => 0) 3 (mkOdometry 3 (1/5) (1/20) 1024 0) 7 9 0 (by norm_num [mkOdometry])

/-- C2 (amended): `__init__` already records baseline encoders `(0, 0)`
and the construction-time timestamp — there is no separate uninitialized
state.  The first `update_odometry` call (dt ≥ 1 ms) records its readings
and timestamp as the new baseline, and leaves the pose `(x, y, theta)` at
its initial `(0, 0, 0)` exactly when the readings equal that zero
baseline.  Holds for every value of the π/cos/sin parameters. -/
theorem c2_first_update_zero_baseline (pcos psin : ℚ → ℚ) (p wb wr t0 t : ℚ)
    (res : ℤ) (hp : 0 < p) (ht : 1 / 1000 ≤ t - t0) :
    (updateOdometry pcos psin p (mkOdometry p wb wr res t0) 0 0 t).2 = true ∧
    (updateOdometry pcos psin p (mkOdometry p wb wr res t0) 0 0 t).1.position.x = 0 ∧
    (updateOdometry pcos psin p (mkOdometry p wb wr res t0) 0 0 t).1.position.y = 0 ∧
    (updateOdometry pcos psin p (mkOdometry p wb wr res t0) 0 0 t).1.position.theta = 0 ∧
    (updateOdometry pcos psin p (mkOdometry p wb wr res t0) 0 0 t).1.prev_encoder_left = 0 ∧
    (updateOdometry pcos psin p (mkOdometry p wb wr res t0) 0 0 t).1.prev_encoder_right = 0 ∧
    (updateOdometry pcos psin p (mkOdometry p wb wr res t0) 0 0 t).1.prev_timestamp = t := by
  have hdt : ¬ (t - t0 < 1 / 1000) := not_lt.mpr ht
  have hnorm : normalize_angle p 0 = 0 :=
    normalize_angle_id p 0 (by linarith) (le_of_lt hp)
  simp only [updateOdometry, mkOdometry, wrapCorrect, recordPosition]
  norm_num [hdt, hnorm]

/-- Witness for `c2_first_update_zero_baseline` with the default physical
parameters, construction at time 0, first update at time 1. -/
theorem c2_first_update_zero_baseline_witness :
    (updateOdometry (fun _ => 1) (fun _ => 0) 3 (mkOdometry 3 (1/5) (1/20) 1024 0) 0 0 1).2 = true ∧
    (updateOdometry (fun _ => 1) (fun _ => 0) 3 (mkOdometry 3 (1/5) (1/20) 1024 0) 0 0 1).1.position.x = 0 ∧
    (updateOdometry (fun _ => 1) (fun _ => 0) 3 (mkOdometry 3 (1/5) (1/20) 1024 0) 0 0 1).1.position.y = 0 ∧
    (updateOdometry (fun _ => 1) (fun _ => 0) 3 (mkOdometry 3 (1/5) (1/20) 1024 0) 0 0 1).1.position.theta = 0 ∧
    (updateOdometry (fun _ => 1) (fun _ => 0) 3 (mkOdometry 3 (1/5) (1/20) 1024 0) 0 0 1).1.prev_encoder_left = 0 ∧
    (updateOdometry (fun _ => 1) (fun _ => 0) 3 (mkOdometry 3 (1/5) (1/20) 1024 0) 0 0 1).1.prev_encoder_right = 0 ∧
    (updateOdometry (fun _ => 1) (fun _ => 0) 3 (mkOdometry 3 (1/5) (1/20) 1024 0) 0 0 1).1.prev_timestamp = 1 :=
  c2_first_update_zero_baseline (fun _ => 1) (fun _ => 0) 3 (1/5) (1/20) 0 1 1024
    (by norm_num) (by norm_num)

/-- C2 counterexample: on a freshly constructed integrator (default
parameters, `math.pi` as the rational parameter 3) the FIRST update call,
with readings `(0, 1000)` at `t = 1` (dt = 1 s ≥ 1 ms), changes the pose:
`theta` becomes 375/256 ≠ 0.  The heading change is independent of the
cos/sin stand-ins (here the constants 1 and 0), so the first call is not
the pose-preserving baseline-recording transition the claim asserts. -/
theorem c2_counterexample :
    (updateOdometry (fun _ => 1) (fun _ => 0) 3 (mkOdometry 3 (1/5) (1/20) 1024 0) 0 1000 1).2 = true ∧
    (updateOdometry (fun _ => 1) (fun _ => 0) 3 (mkOdometry 3 (1/5) (1/20) 1024 0) 0 1000 1).1.position.theta = 375/256 ∧
    (375 / 256 : ℚ) ≠ 0 := by
  have hnorm : normalize_angle 3 (375/256) = 375/256 :=
    normalize_angle_id 3 (375/256) (by norm_num) (by norm_num)
  refine ⟨?_, ?_, by norm_num⟩ <;>
    norm_num [updateOdometry, mkOdometry, wrapCorrect, recordPosition, hnorm]

/-- C4: for consecutive uint16 encoder readings, the wraparound correction
of `update_odometry` preserves the delta modulo 2^16 and brings it into
the window `|delta| ≤ 32768`; in particular previous = 65500, current = 10
corrects the raw delta −65490 to 46, and an update from a state with both
previous readings 65500 and new readings 10 reports a left-wheel velocity
computed from a delta of 46 pulses (46 · 3/10240 m over 1 s). -/
theorem c4_wraparound (prev cur : ℤ) (h1 : 0 ≤ prev) (h2 : prev ≤ 65535)
    (h3 : 0 ≤ cur) (h4 : cur ≤ 65535) :
    wrapCorrect (cur - prev) % 65536 = (cur - prev) % 65536 ∧
    |wrapCorrect (cur - prev)| ≤ 32768 ∧
    wrapCorrect (10 - 65500) = 46 ∧
    encoderDeltas stWrapEx 10 10 = (46, 46) ∧
    (updateOdometry (fun _ => 1) (fun _ => 0) 3 stWrapEx 10 10 1).1.velocity.left_wheel = 69 / 5120 := by
  have hnorm : normalize_angle 3 0 = 0 :=
    normalize_angle_id 3 0 (by norm_num) (by norm_num)
  refine ⟨?_, ?_, ?_, ?_, ?_⟩
  · unfold wrapCorrect
    split_ifs with hab hpos
    · rw [lt_abs] at hab; omega
    · rw [lt_abs] at hab; omega
    · rfl
  · unfold wrapCorrect
    split_ifs with hab hpos
    · rw [lt_abs] at hab; rw [abs_le]; omega
    · rw [lt_abs] at hab; rw [abs_le]; omega
    · exact not_lt.mp hab
  · norm_num [wrapCorrect]
  · norm_num [encoderDeltas, stWrapEx, mkOdometry, wrapCorrect]
  · norm_num [updateOdometry, stWrapEx, mkOdometry, wrapCorrect,
      recordPosition, hnorm]

/-- Witness for `c4_wraparound` at previous = 65500, current = 10. -/
theorem c4_wraparound_witness :
    wrapCorrect (10 - 65500) % 65536 = (10 - 65500) % 65536 ∧
    |wrapCorrect (10 - 65500)| ≤ 32768 ∧
    wrapCorrect (10 - 65500) = 46 ∧
    encoderDeltas stWrapEx 10 10 = (46, 46) ∧
    (updateOdometry (fun _ => 1) (fun _ => 0) 3 stWrapEx 10 10 1).1.velocity.left_wheel = 69 / 5120 :=
  c4_wraparound 65500 10 (by norm_num) (by norm_num) (by norm_num) (by norm_num)

/-- C10: `reset_odometry` zeroes the pose, velocity, path history and the
cumulative statistics, but leaves the stored previous encoder readings
untouched, so the deltas of the next `update_odometry` call are still
computed relative to the pre-reset encoder baseline. -/
theorem c10_reset_keeps_encoder_baseline (st : OdoState) (now : ℚ) (l r : ℤ) :
    (resetOdometry st now).position = ⟨0, 0, 0, 0⟩ ∧
    (resetOdometry st now).velocity = ⟨0, 0, 0, 0⟩ ∧
    (resetOdometry st now).path_history = [] ∧
    (resetOdometry st now).total_distance = 0 ∧
    (resetOdometry st now).total_rotation = 0 ∧
    (resetOdometry st now).prev_encoder_left = st.prev_encoder_left ∧
    (resetOdometry st now).prev_encoder_right = st.prev_encoder_right ∧
    encoderDeltas (resetOdometry st now) l r = encoderDeltas st l r :=
  ⟨rfl, rfl, rfl, rfl, rfl, rfl, rfl, rfl⟩

/-! Helper lemmas for the path-history capacity invariant. -/

lemma update_max_eq (pcos psin : ℚ → ℚ) (p : ℚ) (st : OdoState) (l r : ℤ)
    (t : ℚ) :
    ((updateOdometry pcos psin p st l r t).1).max_path_length = st.max_path_length := by
  rw [updateOdometry]
  split
  · rfl
  · rfl

lemma recordPosition_len_le (st : OdoState)
    (h : st.path_history.length ≤ st.max_path_length) :
    (recordPosition st).path_history.length ≤ st.max_path_length := by
  simp only [recordPosition]
  split
  · next hgt =>
    simp only [List.length_tail, List.length_append, List.length_cons,
      List.length_nil]
    omega
  · next hle =>
    simp only [List.length_append, List.length_cons, List.length_nil] at hle ⊢
    omega

lemma update_path_le (pcos psin : ℚ → ℚ) (p : ℚ) (st : OdoState) (l r : ℤ)
    (t : ℚ) (h : st.path_history.length ≤ st.max_path_length) :
    ((updateOdometry pcos psin p st l r t).1).path_history.length ≤ st.max_path_length := by
  rw [updateOdometry]
  split
  · exact h
  · exact recordPosition_len_le _ h

lemma runUpdates_path_le (pcos psin : ℚ → ℚ) (p : ℚ) :
    ∀ (calls : List (ℤ × ℤ × ℚ)) (st : OdoState),
      st.path_history.length ≤ st.max_path_length →
      (runUpdates pcos psin p st calls).path_history.length ≤ st.max_path_length ∧
      (runUpdates pcos psin p st calls).max_path_length = st.max_path_length := by
  intro calls
  induction calls with
  | nil => intro st h; exact ⟨h, rfl⟩
  | cons c cs ih =>
    intro st h
    simp only [runUpdates]
    have hmax := update_max_eq pcos psin p st c.1 c.2.1 c.2.2
    have hlen := update_path_le pcos psin p st c.1 c.2.1 c.2.2 h
    obtain ⟨ih1, ih2⟩ :=
      ih (updateOdometry pcos psin p st c.1 c.2.1 c.2.2).1 (by rw [hmax]; exact hlen)
    rw [hmax] at ih1 ih2
    exact ⟨ih1, ih2⟩

/-- C7: starting from a fresh integrator (capacity 1000), no sequence of
`update_odometry` calls ever leaves more than 1000 entries in the path
history; and `_record_position` on a full history evicts exactly the
oldest (front) entry, the surviving entries keeping their order and
values, with the copy of the current position appended at the back. -/
theorem c7_path_capacity (pcos psin : ℚ → ℚ) (p wb wr t0 : ℚ) (res : ℤ)
    (calls : List (ℤ × ℤ × ℚ)) (st : OdoState)
    (hfull : st.path_history.length = st.max_path_length)
    (hmax : 0 < st.max_path_length) :
    (runUpdates pcos psin p (mkOdometry p wb wr res t0) calls).path_history.length ≤ 1000 ∧
    (recordPosition st).path_history = st.path_history.tail ++ [st.position] := by
  constructor
  · have h := runUpdates_path_le pcos psin p calls (mkOdometry p wb wr res t0)
      (by simp [mkOdometry])
    simpa [mkOdometry] using h.1
  · simp only [recordPosition]
    have hgt : st.max_path_length <
        (st.path_history ++
          [(⟨st.position.x, st.position.y, st.position.theta,
            st.position.timestamp⟩ : Position)]).length := by
      simp [hfull]
    rw [if_pos hgt]
    cases hpath : st.path_history with
    | nil => rw [hpath] at hfull; simp at hfull; omega
    | cons a l => rfl

/-- Witness for `c7_path_capacity`: one update on a fresh integrator, and
eviction on `stFullEx`, whose single-entry history is at its capacity 1. -/
theorem c7_path_capacity_witness :
    (runUpdates (fun _ => 1) (fun _ => 0) 3 (mkOdometry 3 (1/5) (1/20) 1024 0)
      [(10, 10, 1)]).path_history.length ≤ 1000 ∧
    (recordPosition stFullEx).path_history = stFullEx.path_history.tail ++ [stFullEx.position] :=
  c7_path_capacity (fun _ => 1) (fun _ => 0) 3 (1/5) (1/20) 0 1024
    [(10, 10, 1)] stFullEx rfl (by norm_num [stFullEx, mkOdometry])

/-- C1 (documents the variant 01 bug): on a stream whose header is
followed by only 5 payload bytes before the timeout, variant 01
`receive_sensor_data` leaves every sensor field untouched (the
`struct.error` is swallowed) yet still returns `True`, while variant 02
returns `False` as the claim and spec require.  So the "discard, never
silently populate" half of the claim holds in both variants, but the
"fails with a non-success result" half is violated by variant 01. -/
theorem c1_short_read (st : SensorState) :
    receive01 (HEADER_BYTE :: [1, 2, 3, 4, 5]) st = (st, true) ∧
    receive02 (HEADER_BYTE :: [1, 2, 3, 4, 5]) st = (st, false) :=
  ⟨rfl, rfl⟩

/-- C9 (documents the variant 01 bug): variant 01 parses the four encoder
words with signed format `h` (`">hhhhhhhhhh"`), so the raw encoder value
65500 decodes to −36, outside the claimed 0..65535 range and against the
function's own docstring ("4 uint16 values"); variant 02 (`'<6h4H'`)
decodes the same value as the unsigned 65500 ∈ 0..65535. -/
theorem c9_encoder_sign :
    (parse01 payloadBE mkSensor).encoder1 = -36 ∧
    (parse01 payloadBE mkSensor).encoder1 < 0 ∧
    (parse02 payloadLE mkSensor).encoder1 = 65500 ∧
    0 ≤ (parse02 payloadLE mkSensor).encoder1 ∧
    (parse02 payloadLE mkSensor).encoder1 ≤ 65535 := by
  refine ⟨by decide, by decide, by decide, by decide, by decide⟩

/-! Helper lemmas for the header-scan loop. -/

lemma findHeader_append (garbage rest : List ℕ)
    (hg : ∀ b ∈ garbage, b ≠ HEADER_BYTE) :
    findHeader (garbage ++ HEADER_BYTE :: rest) = some rest := by
  induction garbage with
  | nil => simp [findHeader]
  | cons b bs ih =>
    have hb : b ≠ HEADER_BYTE := hg b (by simp)
    simp only [List.cons_append, findHeader, if_neg hb]
    exact ih fun x hx => hg x (by simp [hx])

lemma findHeader_none (garbage : List ℕ)
    (hg : ∀ b ∈ garbage, b ≠ HEADER_BYTE) :
    findHeader garbage = none := by
  induction garbage with
  | nil => rfl
  | cons b bs ih =>
    simp only [findHeader, if_neg (hg b (by simp))]
    exact ih fun x hx => hg x (by simp [hx])

/-- C8 (amended to variants 01/02; variant 03 is the counterexample):
both variant 01 and variant 02 `receive_sensor_data` consume and discard
bytes one at a time until one equals `HEADER_BYTE`; any garbage prefix
free of the header byte is skipped and the 20-byte payload behind the
header is parsed (with each variant's own parser) and success reported;
and if the stream runs out (timeout) before any header byte matched,
both calls fail with every sensor field unmodified. -/
theorem c8_header_scan (garbage payload : List ℕ) (st : SensorState)
    (hg : ∀ b ∈ garbage, b ≠ HEADER_BYTE) (hp : payload.length = 20) :
    receive01 (garbage ++ HEADER_BYTE :: payload) st = (parse01 payload st, true) ∧
    receive01 garbage st = (st, false) ∧
    receive02 (garbage ++ HEADER_BYTE :: payload) st = (parse02 payload st, true) ∧
    receive02 garbage st = (st, false) := by
  refine ⟨?_, ?_, ?_, ?_⟩
  · simp only [receive01, findHeader_append garbage payload hg,
      List.take_of_length_le (le_of_eq hp)]
  · simp only [receive01, findHeader_none garbage hg]
  · simp only [receive02, findHeader_append garbage payload hg,
      List.take_of_length_le (le_of_eq hp), hp, if_pos]
  · simp only [receive02, findHeader_none garbage hg]

/-- Witness for `c8_header_scan`: garbage `[1, 2]` before a header and an
all-zero 20-byte payload. -/
theorem c8_header_scan_witness :
    receive01 ([1, 2] ++ HEADER_BYTE :: List.replicate 20 0) mkSensor =
      (parse01 (List.replicate 20 0) mkSensor, true) ∧
    receive01 [1, 2] mkSensor = (mkSensor, false) ∧
    receive02 ([1, 2] ++ HEADER_BYTE :: List.replicate 20 0) mkSensor =
      (parse02 (List.replicate 20 0) mkSensor, true) ∧
    receive02 [1, 2] mkSensor = (mkSensor, false) :=
  c8_header_scan [1, 2] (List.replicate 20 0) mkSensor (by decide) (by decide)

/-- C8 counterexample: variant 03 `receive_sensor_data` does NOT scan for
the header.  On `streamC` — one garbage byte, then a complete frame whose
accel_x field is 7 — it consumes 23 bytes starting at the garbage byte
and parses misaligned data: it reports success with `accel_x = 5120`
(the length byte 20 shifted into the high byte) instead of the frame's 7. -/
theorem c8_counterexample :
    (receive03 streamC mkSensor).2 = true ∧
    (receive03 streamC mkSensor).1.accel_x = 5120 ∧
    (5120 : ℤ) ≠ 7 := by
  refine ⟨by decide, by decide, by decide⟩

/-! Helper lemmas for motor-command encoding. -/

lemma toInt16_bytes (v : ℤ) (h1 : -32768 ≤ v) (h2 : v ≤ 32767) :
    toInt16 ((v % 65536).toNat % 256 + 256 * ((v % 65536).toNat / 256)) = v := by
  rw [Nat.mod_add_div]
  unfold toInt16
  split_ifs <;> omega

lemma clamp_mem (lo hi v : ℤ) (h : lo ≤ hi) :
    lo ≤ clamp lo hi v ∧ clamp lo hi v ≤ hi := by
  unfold clamp
  omega

lemma clamp_idem (lo hi v : ℤ) : clamp lo hi (clamp lo hi v) = clamp lo hi v := by
  unfold clamp
  omega

/-- C5: both motor-command encoders first clamp, then deterministically
emit bytes, and never reject: `encode(clamp(input)) = encode(input)`,
clamping is idempotent, and the payload bytes always decode back to the
clamped — hence in-range — values (variant 02: signed little-endian words
with speed in −255..255 and angle in −180..180; variant 03: an unsigned
speed byte in 0..255 and a signed angle byte in −127..127). -/
theorem c5_clamped_encoding (s a : ℤ) :
    send_motor_command02 (clamp (-255) 255 s) (clamp (-180) 180 a) =
      send_motor_command02 s a ∧
    send_motor_command03 (clamp 0 255 s) (clamp (-127) 127 a) =
      send_motor_command03 s a ∧
    clamp (-255) 255 (clamp (-255) 255 s) = clamp (-255) 255 s ∧
    clamp (-180) 180 (clamp (-180) 180 a) = clamp (-180) 180 a ∧
    clamp 0 255 (clamp 0 255 s) = clamp 0 255 s ∧
    clamp (-127) 127 (clamp (-127) 127 a) = clamp (-127) 127 a ∧
    packetSpeed02 (send_motor_command02 s a) = clamp (-255) 255 s ∧
    packetAngle02 (send_motor_command02 s a) = clamp (-180) 180 a ∧
    -255 ≤ clamp (-255) 255 s ∧ clamp (-255) 255 s ≤ 255 ∧
    -180 ≤ clamp (-180) 180 a ∧ clamp (-180) 180 a ≤ 180 ∧
    packetSpeed03 (send_motor_command03 s a) = clamp 0 255 s ∧
    packetAngle03 (send_motor_command03 s a) = clamp (-127) 127 a ∧
    0 ≤ clamp 0 255 s ∧ clamp 0 255 s ≤ 255 ∧
    -127 ≤ clamp (-127) 127 a ∧ clamp (-127) 127 a ≤ 127 := by
  obtain ⟨hs2a, hs2b⟩ := clamp_mem (-255) 255 s (by norm_num)
  obtain ⟨ha2a, ha2b⟩ := clamp_mem (-180) 180 a (by norm_num)
  obtain ⟨hs3a, hs3b⟩ := clamp_mem 0 255 s (by norm_num)
  obtain ⟨ha3a, ha3b⟩ := clamp_mem (-127) 127 a (by norm_num)
  refine ⟨?_, ?_, clamp_idem _ _ _, clamp_idem _ _ _, clamp_idem _ _ _,
    clamp_idem _ _ _, ?_, ?_, hs2a, hs2b, ha2a, ha2b, ?_, ?_, hs3a, hs3b,
    ha3a, ha3b⟩
  · simp only [send_motor_command02, clamp_idem]
  · simp only [send_motor_command03, clamp_idem]
  · simp only [packetSpeed02, send_motor_command02, encodeI16LE,
      List.getD_cons_zero, List.getD_cons_succ, List.cons_append,
      List.nil_append]
    exact toInt16_bytes _ (by omega) (by omega)
  · simp only [packetAngle02, send_motor_command02, encodeI16LE,
      List.getD_cons_zero, List.getD_cons_succ, List.cons_append,
      List.nil_append]
    exact toInt16_bytes _ (by omega) (by omega)
  · simp only [packetSpeed03, send_motor_command03, List.getD_cons_zero,
      List.getD_cons_succ]
    omega
  · simp only [packetAngle03, send_motor_command03, List.getD_cons_zero,
      List.getD_cons_succ]
    unfold toInt8
    split_ifs <;> omega
